import Mathlib

/-!
Verification of the InvenTree ruleset-validator specification against the
source files `src/InvenTree/users/tests.py` and `src/InvenTree/InvenTree/apps.py`.

The data model follows the spec's RBAC abstraction: a registry is a finite
mapping from permission-group names to lists of resource identifiers, embedded
as an association list (Python dictionaries iterate their key/value pairs in
insertion order and have no duplicate keys, so theorems that need uniqueness
take a `Nodup` hypothesis on the key list).
-/

namespace RuleSetVerif

abbrev GroupName := String
abbrev ResourceId := String

/-- The mapping `RuleSet.RULESET_MODELS` from group name to the list of
governed resource identifiers, embedded as an association list. -/
abbrev Registry := List (GroupName × List ResourceId)

/-- The key set of the registry (`RuleSet.RULESET_MODELS.keys()`). -/
def keysOf (reg : Registry) : List GroupName := reg.map Prod.fst

/-- Code: `missing = [name for name in RuleSet.RULESET_NAMES if name not in
keys]` (tests.py line 21). -/
def missingOf (expected : List GroupName) (reg : Registry) : List GroupName :=
  expected.filter (fun name => !(keysOf reg).contains name)

/-- Code: `extra = [name for name in keys if name not in RuleSet.RULESET_NAMES]`
(tests.py line 29). -/
def extraOf (expected : List GroupName) (reg : Registry) : List GroupName :=
  (keysOf reg).filter (fun name => !expected.contains name)

/-- Code: `empty = [key for key in keys if len(RULESET_MODELS[key]) == 0]`
(tests.py line 37); iterating a dict's keys and looking each one up visits
exactly the dict's key/value pairs. -/
def emptyOf (reg : Registry) : List GroupName :=
  (reg.filter (fun p => p.2.isEmpty)).map Prod.fst

/-- Outcome of `test_ruleset_models` (tests.py lines 44-46): the three
assertions demand that `missing`, `extra` and `empty` all have length 0. -/
def rulesetModelsCheck (expected : List GroupName) (reg : Registry) : Bool :=
  (missingOf expected reg).length == 0 &&
  (extraOf expected reg).length == 0 &&
  (emptyOf reg).length == 0

/-- State threaded through the `test_model_names` loop (tests.py lines 62-77):
the `errors` counter, the `assigned_models` accumulator, and the list of
resource ids reported (printed) as invalid. -/
structure CheckState where
  errors : Nat
  assigned : List ResourceId
  invalid : List ResourceId
deriving Repr, DecidableEq

/-- Body of the inner loop of `test_model_names` (tests.py lines 71-77):
append `m` to `assigned_models`; if `m` is not an available table, report it
and increment `errors`. -/
def checkModel (tables : List ResourceId) (st : CheckState) (m : ResourceId) :
    CheckState :=
  let st1 : CheckState := { st with assigned := st.assigned ++ [m] }
  if tables.contains m then st1
  else { st1 with errors := st1.errors + 1, invalid := st1.invalid ++ [m] }

/-- The double loop of `test_model_names` (tests.py lines 67-77): for each
key of `RULESET_MODELS`, walk that group's model list. -/
def checkAll (tables : List ResourceId) (reg : Registry) : CheckState :=
  reg.foldl (fun st p => p.2.foldl (checkModel tables) st)
    { errors := 0, assigned := [], invalid := [] }

/-- Code: `missing_models = [model for model in available_tables if model not
in assigned_models]` (tests.py lines 81-85): the advisory uncovered set. -/
def uncoveredOf (tables : List ResourceId) (reg : Registry) : List ResourceId :=
  tables.filter (fun t => !(checkAll tables reg).assigned.contains t)

/-- Outcome of `test_model_names` (tests.py line 79): the single assertion
demands `errors == 0`; `missing_models` is only printed as a warning. -/
def modelNamesCheck (tables : List ResourceId) (reg : Registry) : Bool :=
  (checkAll tables reg).errors == 0

/-- The overall pass/fail verdict of the validator's caller: both test
methods must pass. -/
def validationPasses (expected : List GroupName) (tables : List ResourceId)
    (reg : Registry) : Bool :=
  rulesetModelsCheck expected reg && modelNamesCheck tables reg

/-- The structured report of the spec's `validate` operation: the five named
sets of section 4.2. -/
structure ValidationReport where
  missing : List GroupName
  extra : List GroupName
  emptyGroups : List GroupName
  invalidRefs : List ResourceId
  uncovered : List ResourceId
deriving Repr, DecidableEq

/-- Operation `validate(registry, expectedGroupNames, liveResources)`: aggregates the
five sets the two test methods compute, and nothing else (a total, pure
function: it never throws, the caller decides pass/fail). -/
def validate (reg : Registry) (expected : List GroupName)
    (live : List ResourceId) : ValidationReport :=
  { missing := missingOf expected reg
    extra := extraOf expected reg
    emptyGroups := emptyOf reg
    invalidRefs := (checkAll live reg).invalid
    uncovered := uncoveredOf live reg }

/-- The error raised on looking up an undeclared group. -/
structure UnknownGroupError where
  group : GroupName
deriving Repr, DecidableEq

/-- Modelled from the spec: the `RuleSet` registry class
(`src/InvenTree/users/models.py`) is not among the sources, only its tests;
per the contract of section 4.1, "expose `resourcesFor(group) ->
set<ResourceId>`, fails with `UnknownGroupError` if group not declared"
(a Python dict subscript raises on a missing key rather than defaulting). -/
def resourcesFor (reg : Registry) (g : GroupName) :
    Except UnknownGroupError (List ResourceId) :=
  match List.lookup g reg with
  | some s => Except.ok s
  | none => Except.error ⟨g⟩

/-! ### The spec's declarative description of the five sets (section 4.2)

These definitions are written from the specification's set comprehensions, to
be compared with the code-derived `validate`. -/

/-- Spec: `missing = expectedGroupNames − registry.keys()`. -/
def specMissing (expected : List GroupName) (reg : Registry) : List GroupName :=
  expected.filter (fun g => !(keysOf reg).contains g)

/-- Spec: `extra = registry.keys() − expectedGroupNames`. -/
def specExtra (expected : List GroupName) (reg : Registry) : List GroupName :=
  (keysOf reg).filter (fun g => !expected.contains g)

/-- Whether `resourcesFor(g)` yields the empty set. -/
def isEmptyResources (reg : Registry) (g : GroupName) : Bool :=
  match resourcesFor reg g with
  | Except.ok s => s.isEmpty
  | Except.error _ => false

/-- Spec: `empty = \x7b g ∈ registry.keys() : resourcesFor(g) = ∅ \x7d`. -/
def specEmptyGroups (reg : Registry) : List GroupName :=
  (keysOf reg).filter (isEmptyResources reg)

/-- Spec: `invalidRefs = \x7b r ∈ resourcesFor(g) : r ∉ liveResources, for any
g \x7d`. -/
def specInvalidRefs (reg : Registry) (live : List ResourceId) : List ResourceId :=
  (reg.flatMap Prod.snd).filter (fun r => !live.contains r)

/-- Spec: `uncovered = liveResources − ⋃ resourcesFor(g)`. -/
def specUncovered (reg : Registry) (live : List ResourceId) : List ResourceId :=
  live.filter (fun r => !(reg.flatMap Prod.snd).contains r)

/-! ### Startup hooks (`src/InvenTree/InvenTree/apps.py`)

The Django-specific collaborators are modelled explicitly: a settings value
is a string or a boolean (Python truthiness: non-empty string or `True`), the
scheduled-task table is a list of rows, and `ready` is rendered as the trace
of hook invocations it performs. -/

/-- A resolved configuration value: Python strings and booleans, with their
truthiness. -/
inductive SettingValue
  | str (s : String)
  | flag (b : Bool)
deriving Repr, DecidableEq

/-- Python truthiness of a settings value. -/
def truthy : SettingValue → Bool
  | SettingValue.str s => !s.isEmpty
  | SettingValue.flag b => b

/-- Helper `get_setting(env_var, backup_value)`: the environment value when set,
otherwise the fallback (the config-file value). -/
def get_setting (env : Option SettingValue) (backup : SettingValue) :
    SettingValue :=
  env.getD backup

/-- Lookup `settings.CONFIG.get(key, False)`: the config-file value when present,
otherwise Python `False` (apps.py lines 151-162). -/
def configGet (cfg : Option SettingValue) : SettingValue :=
  cfg.getD (SettingValue.flag false)

/-- Observable outcome of `add_user_on_startup`: whether the warning was
logged, and the `(username, email, password)` triple passed to
`create_user`, if any. -/
structure StartupUserAction where
  warned : Bool
  attempted : Option (SettingValue × SettingValue × SettingValue)
deriving Repr, DecidableEq

/-- Hook `add_user_on_startup` (apps.py lines 147-176): resolve the three settings
with their config-file fallbacks; if their conjunction is falsy, warn and
return, otherwise hand the triple to `create_user`. -/
def add_user_on_startup
    (envUser envEmail envPassword cfgUser cfgEmail cfgPassword :
      Option SettingValue) : StartupUserAction :=
  let add_user := get_setting envUser (configGet cfgUser)
  let add_email := get_setting envEmail (configGet cfgEmail)
  let add_password := get_setting envPassword (configGet cfgPassword)
  if !(truthy add_user && truthy add_email && truthy add_password) then
    { warned := true, attempted := none }
  else
    { warned := false, attempted := some (add_user, add_email, add_password) }

/-- A row of the `django_q` `Schedule` table: a primary key and the stored
function name. -/
structure ScheduledTask where
  id : Nat
  func : String
deriving Repr, DecidableEq

/-- The hard-coded `obsolete` list of apps.py lines 39-42. -/
def obsolete_funcs : List String :=
  ["InvenTree.tasks.delete_expired_sessions",
   "stock.tasks.delete_old_stock_items"]

/-- Hook `remove_obsolete_tasks` (apps.py lines 34-50):
`Schedule.objects.filter(func__in=obsolete).delete()` — the table afterwards
holds exactly the rows whose `func` is not in the obsolete list. -/
def remove_obsolete_tasks (table : List ScheduledTask) : List ScheduledTask :=
  table.filter (fun t => !obsolete_funcs.contains t.func)

/-- The four hooks `ready` may invoke. -/
inductive StartupAction
  | removeObsoleteTasks
  | startBackgroundTasks
  | updateExchangeRates
  | addUserOnStartup
deriving Repr, DecidableEq

/-- Hook `InvenTreeConfig.ready` (apps.py lines 21-32), as the trace of hook
invocations: everything is guarded by `canAppAccessDatabase()`, and
`update_exchange_rates` additionally by `not isInTestMode()`. -/
def ready (canAccessDb inTestMode : Bool) : List StartupAction :=
  if canAccessDb then
    [StartupAction.removeObsoleteTasks, StartupAction.startBackgroundTasks] ++
      (if inTestMode then [] else [StartupAction.updateExchangeRates]) ++
      [StartupAction.addUserOnStartup]
  else []

/-- Registry of the worked example in spec section 8. -/
def exampleRegistry : Registry :=
  [("part", ["part_part"]), ("stock", ["stock_stockitem"])]

/-- Expected group names of the worked example. -/
def exampleExpected : List GroupName := ["part", "stock"]

/-- Live resources of the worked example. -/
def exampleLive : List ResourceId :=
  ["part_part", "stock_stockitem", "orders_order"]

/-! ### Characterisation of the `test_model_names` loop -/

/-- Walking one group's model list adds the models to `assigned`, and the
models absent from `tables` to `invalid`, counting them in `errors`. -/
theorem foldl_checkModel (tables ms : List ResourceId) (st : CheckState) :
    ms.foldl (checkModel tables) st =
      { errors := st.errors + (ms.filter (fun m => !tables.contains m)).length,
        assigned := st.assigned ++ ms,
        invalid := st.invalid ++ ms.filter (fun m => !tables.contains m) } := by
  induction ms generalizing st with
  | nil => simp
  | cons m ms ih =>
    rw [List.foldl_cons, ih, List.filter_cons]
    by_cases hm : m ∈ tables <;> simp [checkModel, hm] <;> omega

/-- The whole double loop: `assigned` collects every declared resource id in
order, `invalid` the declared ids absent from `tables`, and `errors` counts
them. -/
theorem checkAll_eq (tables : List ResourceId) (reg : Registry) :
    checkAll tables reg =
      { errors := ((reg.flatMap Prod.snd).filter
          (fun m => !tables.contains m)).length,
        assigned := reg.flatMap Prod.snd,
        invalid := (reg.flatMap Prod.snd).filter
          (fun m => !tables.contains m) } := by
  have key : ∀ st : CheckState,
      reg.foldl (fun st p => p.2.foldl (checkModel tables) st) st =
        { errors := st.errors + ((reg.flatMap Prod.snd).filter
            (fun m => !tables.contains m)).length,
          assigned := st.assigned ++ reg.flatMap Prod.snd,
          invalid := st.invalid ++ (reg.flatMap Prod.snd).filter
            (fun m => !tables.contains m) } := by
    induction reg with
    | nil => intro st; simp
    | cons p reg ih =>
      intro st
      rw [List.foldl_cons, foldl_checkModel, ih]
      simp [List.flatMap_cons, List.filter_append, Nat.add_assoc]
  rw [checkAll, key]
  simp

/-! ### Association-list lookup versus the key list -/

/-- A lookup misses exactly when the group is not among the keys. -/
theorem lookup_eq_none_iff (reg : Registry) (g : GroupName) :
    List.lookup g reg = none ↔ g ∉ keysOf reg := by
  induction reg with
  | nil => simp [keysOf]
  | cons p reg ih =>
    rw [List.lookup_cons]
    by_cases h : g = p.1
    · simp [keysOf, h]
    · have hb : (g == p.1) = false := by simp [h]
      rw [hb]
      simp only [keysOf, List.map_cons, List.mem_cons, not_or]
      simp only [keysOf] at ih
      simp [h, ih]

/-- A successful lookup returns a value stored under that key. -/
theorem lookup_some_mem {reg : Registry} {g : GroupName}
    {s : List ResourceId} (h : List.lookup g reg = some s) : (g, s) ∈ reg := by
  induction reg with
  | nil => simp at h
  | cons p reg ih =>
    rw [List.lookup_cons] at h
    by_cases hg : g = p.1
    · subst hg
      simp at h
      subst h
      exact List.mem_cons_self _ _
    · have hb : (g == p.1) = false := by simp [hg]
      rw [hb] at h
      exact List.mem_cons_of_mem _ (ih h)

/-- With duplicate-free keys (as in a Python dict), membership of a pair
determines the lookup result. -/
theorem mem_lookup_of_nodup {reg : Registry} {g : GroupName}
    {s : List ResourceId} (hnd : (keysOf reg).Nodup) (h : (g, s) ∈ reg) :
    List.lookup g reg = some s := by
  induction reg with
  | nil => simp at h
  | cons p reg ih =>
    rw [keysOf, List.map_cons, List.nodup_cons] at hnd
    rcases List.mem_cons.mp h with h1 | h1
    · rw [← h1, List.lookup_cons]
      simp
    · have hne : g ≠ p.1 := by
        intro he
        exact hnd.1 (he ▸ (List.mem_map.mpr ⟨(g, s), h1, rfl⟩))
      have hb : (g == p.1) = false := by simp [hne]
      rw [List.lookup_cons, hb]
      exact ih hnd.2 h1

/-- Looking up the head key returns the head value. -/
theorem resourcesFor_cons_self (q : GroupName × List ResourceId)
    (reg : Registry) : resourcesFor (q :: reg) q.1 = Except.ok q.2 := by
  obtain ⟨k, v⟩ := q
  simp [resourcesFor, List.lookup_cons]

/-- Looking up any other key skips the head pair. -/
theorem resourcesFor_cons_ne (q : GroupName × List ResourceId) (reg : Registry)
    (g : GroupName) (h : g ≠ q.1) :
    resourcesFor (q :: reg) g = resourcesFor reg g := by
  have hb : (g == q.1) = false := by simp [h]
  obtain ⟨k, v⟩ := q
  simp only [resourcesFor, List.lookup_cons, hb, cond_false]

/-- On a duplicate-free registry, the code's `empty` list (computed from the
key/value pairs) coincides with the spec's comprehension over the keys. -/
theorem emptyOf_eq_specEmptyGroups (reg : Registry)
    (hnd : (keysOf reg).Nodup) : emptyOf reg = specEmptyGroups reg := by
  induction reg with
  | nil => rfl
  | cons q reg ih =>
    rw [keysOf, List.map_cons, List.nodup_cons] at hnd
    have htail := ih hnd.2
    have hpredq : isEmptyResources (q :: reg) q.1 = q.2.isEmpty := by
      rw [isEmptyResources, resourcesFor_cons_self]
    have hcongr : List.filter (isEmptyResources (q :: reg)) (keysOf reg) =
        List.filter (isEmptyResources reg) (keysOf reg) := by
      apply List.filter_congr
      intro g hg
      have hne : g ≠ q.1 := fun he => hnd.1 (he ▸ hg)
      rw [isEmptyResources, isEmptyResources, resourcesFor_cons_ne _ _ _ hne]
    have hkeys : keysOf (q :: reg) = q.1 :: keysOf reg := rfl
    have htail' : List.filter (isEmptyResources reg) (keysOf reg) =
        emptyOf reg := htail.symm
    rw [specEmptyGroups, hkeys, List.filter_cons, hpredq, hcongr, htail']
    by_cases hq : q.2.isEmpty = true
    · simp [hq, emptyOf, List.filter_cons]
    · simp [hq, emptyOf, List.filter_cons]

/-! ## The claims -/

/-- Claim C1: the validator computes `missing` as the expected names absent
from the registry's keys and `extra` as the keys absent from the expected
names, and the two corresponding assertions (`len(missing) == 0` and
`len(extra) == 0`) hold if and only if the registry's key set exactly equals
the canonical set of expected group names. -/
theorem claim_C1 (expected : List GroupName) (reg : Registry) :
    ((missingOf expected reg).length = 0 ∧ (extraOf expected reg).length = 0)
      ↔ ∀ g, (g ∈ keysOf reg ↔ g ∈ expected) := by
  have h1 : (missingOf expected reg).length = 0 ↔
      ∀ g ∈ expected, g ∈ keysOf reg := by
    simp [missingOf, List.length_eq_zero, List.filter_eq_nil_iff]
  have h2 : (extraOf expected reg).length = 0 ↔
      ∀ g ∈ keysOf reg, g ∈ expected := by
    simp [extraOf, List.length_eq_zero, List.filter_eq_nil_iff]
  rw [h1, h2]
  constructor
  · rintro ⟨ha, hb⟩ g
    exact ⟨fun hg => hb g hg, fun hg => ha g hg⟩
  · intro h
    exact ⟨fun g hg => (h g).mpr hg, fun g hg => (h g).mp hg⟩

/-- Claim C2: on a registry with duplicate-free keys (a dict), a group lands
in the `empty` list exactly when it is a declared key whose resource list is
empty, and validation (`test_ruleset_models`) fails whenever some declared
group has an empty resource list. -/
theorem claim_C2 (expected : List GroupName) (reg : Registry)
    (hnd : (keysOf reg).Nodup) :
    (∀ g, g ∈ emptyOf reg ↔
      (g ∈ keysOf reg ∧ List.lookup g reg = some ([] : List ResourceId))) ∧
    (∀ g, g ∈ keysOf reg → List.lookup g reg = some ([] : List ResourceId) →
      rulesetModelsCheck expected reg = false) := by
  have hmem : ∀ g, g ∈ emptyOf reg ↔
      (g ∈ keysOf reg ∧ List.lookup g reg = some ([] : List ResourceId)) := by
    intro g
    constructor
    · intro hg
      rcases List.mem_map.mp hg with ⟨p, hp, hfst⟩
      obtain ⟨a, b⟩ := p
      rcases List.mem_filter.mp hp with ⟨hin, hemp⟩
      have hb : b = [] := by
        cases b with
        | nil => rfl
        | cons x xs => simp at hemp
      subst hb
      have hfst' : a = g := hfst
      subst hfst'
      exact ⟨List.mem_map.mpr ⟨(a, []), hin, rfl⟩, mem_lookup_of_nodup hnd hin⟩
    · rintro ⟨hk, hl⟩
      have hmem := lookup_some_mem hl
      exact List.mem_map.mpr
        ⟨(g, []), List.mem_filter.mpr ⟨hmem, by simp⟩, rfl⟩
  refine ⟨hmem, ?_⟩
  intro g hk hl
  have hg : g ∈ emptyOf reg := (hmem g).mpr ⟨hk, hl⟩
  have hne : (emptyOf reg).length ≠ 0 := by
    intro h0
    rw [List.length_eq_zero] at h0
    rw [h0] at hg
    simp at hg
  simp [rulesetModelsCheck, hne]

/-- Witness for C2 at the one-group registry whose resource list is empty. -/
theorem claim_C2_witness :
    (keysOf ([("part", [])] : Registry)).Nodup ∧
    ((∀ g, g ∈ emptyOf ([("part", [])] : Registry) ↔
      (g ∈ keysOf ([("part", [])] : Registry) ∧
        List.lookup g ([("part", [])] : Registry) =
          some ([] : List ResourceId))) ∧
    (∀ g, g ∈ keysOf ([("part", [])] : Registry) →
      List.lookup g ([("part", [])] : Registry) =
        some ([] : List ResourceId) →
      rulesetModelsCheck ["part"] ([("part", [])] : Registry) = false)) :=
  ⟨by decide, claim_C2 ["part"] ([("part", [])] : Registry) (by decide)⟩

/-- Claim C3: a resource id is reported invalid exactly when it is declared
by some group and absent from the live tables, and `test_model_names`'s
assertion (`errors == 0`) holds if and only if every declared resource id is
a live table name. -/
theorem claim_C3 (tables : List ResourceId) (reg : Registry) :
    (∀ r, r ∈ (checkAll tables reg).invalid ↔
      ((∃ p ∈ reg, r ∈ p.2) ∧ r ∉ tables)) ∧
    (modelNamesCheck tables reg = true ↔
      ∀ p ∈ reg, ∀ r ∈ p.2, r ∈ tables) := by
  constructor
  · intro r
    rw [checkAll_eq]
    simp [List.mem_filter, List.mem_flatMap]
  · rw [modelNamesCheck, checkAll_eq]
    simp [List.length_eq_zero, List.filter_eq_nil_iff, List.mem_flatMap]
    aesop

/-- Claim C4: `uncovered` is the live resources minus the union of all
declared resource lists, and the overall verdict depends only on the four
error-class sets — each of `missing`, `extra`, `empty`, `invalid` being
non-empty forces failure, while `uncovered` does not occur in the pass
condition at all (it is only printed as a warning). -/
theorem claim_C4 (expected : List GroupName) (tables : List ResourceId)
    (reg : Registry) :
    uncoveredOf tables reg =
      tables.filter (fun t => !(reg.flatMap Prod.snd).contains t) ∧
    (validationPasses expected tables reg = true ↔
      (missingOf expected reg = [] ∧ extraOf expected reg = [] ∧
        emptyOf reg = [] ∧ (checkAll tables reg).invalid = [])) := by
  constructor
  · rw [uncoveredOf, checkAll_eq]
  · rw [validationPasses, rulesetModelsCheck, modelNamesCheck, checkAll_eq]
    simp [List.length_eq_zero]
    tauto

/-- Claim C5: on a registry with duplicate-free keys (a dict), `validate` —
a total Lean function, hence pure and exception-free by construction —
returns the single report whose five components are exactly the spec's five
set comprehensions, whether or not they are empty. -/
theorem claim_C5 (reg : Registry) (expected : List GroupName)
    (live : List ResourceId) (hnd : (keysOf reg).Nodup) :
    validate reg expected live =
      { missing := specMissing expected reg
        extra := specExtra expected reg
        emptyGroups := specEmptyGroups reg
        invalidRefs := specInvalidRefs reg live
        uncovered := specUncovered reg live } := by
  rw [validate, uncoveredOf, checkAll_eq, emptyOf_eq_specEmptyGroups reg hnd]
  rfl

/-- Witness for C5 at the worked example of spec section 8. -/
theorem claim_C5_witness :
    (keysOf exampleRegistry).Nodup ∧
    validate exampleRegistry exampleExpected exampleLive =
      { missing := specMissing exampleExpected exampleRegistry
        extra := specExtra exampleExpected exampleRegistry
        emptyGroups := specEmptyGroups exampleRegistry
        invalidRefs := specInvalidRefs exampleRegistry exampleLive
        uncovered := specUncovered exampleRegistry exampleLive } :=
  ⟨by decide, claim_C5 exampleRegistry exampleExpected exampleLive (by decide)⟩

/-- Claim C6: `resourcesFor` fails with `UnknownGroupError` exactly on the
undeclared group names, and returns the stored resource list on the declared
ones. -/
theorem claim_C6 (reg : Registry) (g : GroupName) :
    (resourcesFor reg g = Except.error ⟨g⟩ ↔ g ∉ keysOf reg) ∧
    (∀ s, List.lookup g reg = some s → resourcesFor reg g = Except.ok s) := by
  constructor
  · rw [← lookup_eq_none_iff]
    constructor
    · intro h
      rw [resourcesFor] at h
      cases hl : List.lookup g reg with
      | none => rfl
      | some s => rw [hl] at h; simp at h
    · intro h
      rw [resourcesFor, h]
  · intro s h
    rw [resourcesFor, h]

/-- Witness for C6: an undeclared and a declared group of a one-entry
registry. -/
theorem claim_C6_witness :
    resourcesFor ([("part", ["part_part"])] : Registry) "stock" =
      Except.error ⟨"stock"⟩ ∧
    resourcesFor ([("part", ["part_part"])] : Registry) "part" =
      Except.ok ["part_part"] :=
  ⟨(claim_C6 ([("part", ["part_part"])] : Registry) "stock").1.mpr
      (by decide),
    (claim_C6 ([("part", ["part_part"])] : Registry) "part").2 ["part_part"]
      (by decide)⟩

/-- Claim C7: on the worked example of spec section 8 the report is
`missing = extra = empty = invalidRefs = ∅`, `uncovered = \x7b"orders_order"\x7d`,
and validation passes. -/
theorem claim_C7 :
    validate exampleRegistry exampleExpected exampleLive =
      { missing := [], extra := [], emptyGroups := [], invalidRefs := [],
        uncovered := ["orders_order"] } ∧
    validationPasses exampleExpected exampleLive exampleRegistry = true := by
  decide

/-- Claim C8: `add_user_on_startup` hands a triple to `create_user` exactly
when all three settings (environment value, falling back to the config-file
value, falling back to Python `False`) resolve to truthy values; otherwise it
logs the warning and returns with no creation attempted. -/
theorem claim_C8 (envU envE envP cfgU cfgE cfgP : Option SettingValue) :
    ((add_user_on_startup envU envE envP cfgU cfgE cfgP).attempted.isSome =
        true ↔
      (truthy (get_setting envU (configGet cfgU)) = true ∧
        truthy (get_setting envE (configGet cfgE)) = true ∧
        truthy (get_setting envP (configGet cfgP)) = true)) ∧
    (¬(truthy (get_setting envU (configGet cfgU)) = true ∧
        truthy (get_setting envE (configGet cfgE)) = true ∧
        truthy (get_setting envP (configGet cfgP)) = true) →
      add_user_on_startup envU envE envP cfgU cfgE cfgP =
        { warned := true, attempted := none }) := by
  cases hu : truthy (get_setting envU (configGet cfgU)) <;>
  cases he : truthy (get_setting envE (configGet cfgE)) <;>
  cases hp : truthy (get_setting envP (configGet cfgP)) <;>
    simp [add_user_on_startup, hu, he, hp]

/-- Witness for C8: with every setting absent, the hook only warns. -/
theorem claim_C8_witness :
    add_user_on_startup none none none none none none =
      { warned := true, attempted := none } :=
  (claim_C8 none none none none none none).2 (by decide)

/-- Claim C9: `remove_obsolete_tasks` leaves exactly the scheduled tasks
whose function name is neither of the two hard-coded obsolete names, and the
surviving rows are an unchanged (in-order) sublist of the original table. -/
theorem claim_C9 (table : List ScheduledTask) :
    (∀ t, t ∈ remove_obsolete_tasks table ↔
      (t ∈ table ∧ t.func ≠ "InvenTree.tasks.delete_expired_sessions" ∧
        t.func ≠ "stock.tasks.delete_old_stock_items")) ∧
    (remove_obsolete_tasks table).Sublist table := by
  constructor
  · intro t
    simp [remove_obsolete_tasks, obsolete_funcs, List.mem_filter]
  · exact List.filter_sublist _

/-- Claim C10: `update_exchange_rates` is invoked during `ready` exactly when
the database is accessible and the process is not in test mode, and on that
path the trace runs obsolete-task removal and background-task scheduling
before it. -/
theorem claim_C10 (canAccessDb inTestMode : Bool) :
    (StartupAction.updateExchangeRates ∈ ready canAccessDb inTestMode ↔
      (canAccessDb = true ∧ inTestMode = false)) ∧
    (canAccessDb = true → inTestMode = false →
      ready canAccessDb inTestMode =
        [StartupAction.removeObsoleteTasks,
          StartupAction.startBackgroundTasks,
          StartupAction.updateExchangeRates,
          StartupAction.addUserOnStartup]) := by
  cases canAccessDb <;> cases inTestMode <;> decide

/-- Witness for C10: with database access and outside test mode, the trace
is exactly removal, scheduling, exchange-rate update, user bootstrap. -/
theorem claim_C10_witness :
    ready true false =
      [StartupAction.removeObsoleteTasks, StartupAction.startBackgroundTasks,
        StartupAction.updateExchangeRates, StartupAction.addUserOnStartup] :=
  (claim_C10 true false).2 rfl rfl

end RuleSetVerif
